import Mathlib

/-!
Verification of the date-window, response-mapping and serialization logic of a small
HTTP service that proxies the GitHub contribution-calendar GraphQL API
(src/contributions.ts: zQueryParams, getContributionsRoute, getContributions,
mapContributions, mapActivityLevel, toCsv, toIsoDate, resolveDates).

The service manipulates calendar dates through the JavaScript Date built-in, always in
UTC (date-only ISO strings parse to UTC midnight, and the host runs in UTC).  A Date is
modelled by the integer day number of its calendar day since 1970-01-01; time-of-day is
dropped, since every operation the service performs (getDate, getDay, getMonth,
setDate, setMonth, toISOString().slice(0, 10), and comparisons at day granularity)
factors through the day number.  The civil-calendar conversions daysFromCivil and
civilFromDays implement the proleptic Gregorian calendar (Howard Hinnant's
days_from_civil / civil_from_days algorithms, the standard constant-time form of the
conversions ECMA-262 specifies via MakeDay / YearFromTime / MonthFromTime /
DateFromTime), and the round trip between them is proved, so the Date model is exact.

Query validation (the zod schema zQueryParams) is modelled field by field from the
schema declaration: ISO-date checks for from/to, integer coercion with a minimum of 1
for d/w/m/y, an enum check for format, field order from, to, d, w, m, y, format, and
the first failing field's message reported.  Two modelling notes: y carries
.default(1), and zod v4 (the version the repository pins, recognized by the z.iso.date
API) applies an inner default even through .optional(), so a missing y validates to 1;
and the model's date check also rejects regex-valid but nonexistent dates such as
2024-02-31, which the real schema passes through only for the Date constructor to turn
into an unusable Invalid Date.

The upstream GraphQL call is modelled as an oracle: either a parsed calendar or a
failure (network error or unparseable body), which is what the code's try/catch
distinguishes.
-/

set_option maxRecDepth 4000

/-! ### Definitions: the calendar and Date model, then the service code -/

/-- Core of civil_from_days: from a day-of-era doe in [0, 146096] the year-of-era is
hinnantU doe / 365.  (Hinnant's yoe = (doe - doe/1460 + doe/36524 - doe/146096) / 365.) -/
def hinnantU (n : Int) : Int := n - n / 1460 + n / 36524 - n / 146096

/-- Day-of-era of the first day (March 1) of year-of-era y, for y in [0, 399]. -/
def yearStartDoe (y : Int) : Int := 365 * y + y / 4 - y / 100

/-- A proleptic-Gregorian calendar date; month is 1-based as in ISO dates. -/
structure CivilDate where
  year : Int
  month : Int
  day : Int
deriving DecidableEq, Repr

/-- Day number (days since 1970-01-01) of the civil date y-m-d: Hinnant's
days_from_civil, the closed form of ECMA-262's MakeDay chain.  For m in [1, 12] and
d = 1 it gives the first day of the month; d enters linearly, which is exactly
MakeDay's "first of month plus dt - 1". -/
def daysFromCivil (y m d : Int) : Int :=
  let yy := if m ≤ 2 then y - 1 else y
  let era := yy / 400
  let yoe := yy - era * 400
  let mp := if 2 < m then m - 3 else m + 9
  let doy := (153 * mp + 2) / 5 + d - 1
  let doe := yoe * 365 + yoe / 4 - yoe / 100 + doy
  era * 146097 + doe - 719468

/-- Civil date of day number z: Hinnant's civil_from_days, the closed form of
ECMA-262's YearFromTime / MonthFromTime / DateFromTime.  The round trip with
daysFromCivil is proved below (daysFromCivil_civilFromDays). -/
def civilFromDays (z : Int) : CivilDate :=
  let era := (z + 719468) / 146097
  let doe := (z + 719468) % 146097
  let yoe := hinnantU doe / 365
  let doy := doe - yearStartDoe yoe
  let mp := (5 * doy + 2) / 153
  let d := doy - (153 * mp + 2) / 5 + 1
  let m := if mp < 10 then mp + 3 else mp - 9
  { year := yoe + era * 400 + (if m ≤ 2 then 1 else 0), month := m, day := d }

-- sanity checks of the calendar model

/-- Day number of the first day of absolute month a (a = 12 * year + 0-based month). -/
def monthStartDay (a : Int) : Int := daysFromCivil (a / 12) (a % 12 + 1) 1

/-- Date.prototype.getDay: ECMA-262 WeekDay(t) = (Day(t) + 4) modulo 7
(1970-01-01 was a Thursday, index 4); 0 is Sunday. -/
def jsGetDay (z : Int) : Int := (z + 4) % 7

/-- Date.prototype.getDate: ECMA-262 DateFromTime, the day of the month. -/
def jsGetDate (z : Int) : Int := (civilFromDays z).day

/-- Date.prototype.getMonth: ECMA-262 MonthFromTime, 0-based. -/
def jsGetMonth (z : Int) : Int := (civilFromDays z).month - 1

/-- Date.prototype.getFullYear: ECMA-262 YearFromTime. -/
def jsGetFullYear (z : Int) : Int := (civilFromDays z).year

/-- ECMA-262 MakeDay(y, mo, dt) with a 0-based month mo of any size: normalize the
month into the year (ym = y + floor(mo / 12), mn = mo modulo 12), take the first day
of that month, and add dt - 1 days.  Out-of-range dt rolls across month boundaries,
exactly as in JavaScript. -/
def jsMakeDay (y mo dt : Int) : Int := daysFromCivil (y + mo / 12) (mo % 12 + 1) 1 + (dt - 1)

/-- Date.prototype.setDate: MakeDay of the date's own year and month with the day of
the month replaced by dt. -/
def jsSetDate (z dt : Int) : Int := jsMakeDay (jsGetFullYear z) (jsGetMonth z) dt

/-- Date.prototype.setMonth: MakeDay of the date's own year and day-of-month with the
month replaced by mo. -/
def jsSetMonth (z mo : Int) : Int := jsMakeDay (jsGetFullYear z) mo (jsGetDate z)

/-- The format enum of zQueryParams: z.enum(["json", "csv"]).default("json"). -/
inductive OutFmt
  | json
  | csv
deriving DecidableEq, Repr

/-- The output of zQueryParams.safeParse on success (z.output of the schema).
fromOpt / toOpt stand for the optional from / to fields (from and to are Lean
keywords); d, w, m are the optional validated durations; y carries .default(1), so it
is always present after parsing (zod v4 applies the inner default through
.optional()); format defaults to json. -/
structure QueryOptions where
  fromOpt : Option CivilDate
  toOpt : Option CivilDate
  d : Option Int
  w : Option Int
  m : Option Int
  y : Int
  format : OutFmt
deriving DecidableEq, Repr

/-- JavaScript truthiness of a possibly-undefined number, as used by the source's
"if (opts.d)" chain: undefined and 0 are falsy. -/
def jsTruthy : Option Int → Bool
  | none => false
  | some v => v != 0

/-- new Date("YYYY-MM-DD"): a date-only ISO string parses to UTC midnight of that
civil date, i.e. to its day number. -/
def civilToDayNum (c : CivilDate) : Int := daysFromCivil c.year c.month c.day

/-- The { to, from } pair resolveDates returns (fields suffixed with D because from
is a Lean keyword). -/
structure DateWindow where
  toD : Int
  fromD : Int
deriving DecidableEq, Repr

/-- Transcription of resolveDates (src/contributions.ts lines 136-148):
  const to = opts.to ? new Date(opts.to) : new Date();
  const from = opts.from ? new Date(opts.from) : new Date(to);
  if (opts.d) from.setDate(from.getDate() - opts.d);
  else if (opts.w) from.setDate(from.getDate() - opts.w * 7);
  else if (opts.m) from.setMonth(from.getMonth() - opts.m);
  else if (opts.y) from.setMonth(from.getMonth() - opts.y * 12);
  const fromDayIndex = from.getDay();
  if (fromDayIndex !== 0) from.setDate(from.getDate() - fromDayIndex);
  return { to, from };
now is the day number of the current instant (new Date()).  A validated from/to
string is never empty, hence truthy exactly when present. -/
def resolveDates (now : Int) (opts : QueryOptions) : DateWindow :=
  let to0 : Int :=
    match opts.toOpt with
    | some t => civilToDayNum t
    | none => now
  let from0 : Int :=
    match opts.fromOpt with
    | some f => civilToDayNum f
    | none => to0
  let from1 : Int :=
    if jsTruthy opts.d then jsSetDate from0 (jsGetDate from0 - opts.d.getD 0)
    else if jsTruthy opts.w then jsSetDate from0 (jsGetDate from0 - opts.w.getD 0 * 7)
    else if jsTruthy opts.m then jsSetMonth from0 (jsGetMonth from0 - opts.m.getD 0)
    else if opts.y != 0 then jsSetMonth from0 (jsGetMonth from0 - opts.y * 12)
    else from0
  let fromDayIndex := jsGetDay from1
  let from2 : Int :=
    if fromDayIndex != 0 then jsSetDate from1 (jsGetDate from1 - fromDayIndex) else from1
  { toD := to0, fromD := from2 }

/-- What zQueryParams guarantees about its output: every supplied duration is an
integer of at least 1 (z.coerce.number().int().min(1)), and y is at least 1. -/
def QueryOptions.Valid (o : QueryOptions) : Prop :=
  (∀ v ∈ o.d, 1 ≤ v) ∧ (∀ v ∈ o.w, 1 ≤ v) ∧ (∀ v ∈ o.m, 1 ≤ v) ∧ 1 ≤ o.y

instance (o : QueryOptions) : Decidable o.Valid :=
  decidable_of_iff
    ((∀ v ∈ o.d, 1 ≤ v) ∧ (∀ v ∈ o.w, 1 ≤ v) ∧ (∀ v ∈ o.m, 1 ≤ v) ∧ 1 ≤ o.y) Iff.rfl

deriving instance DecidableEq for Except

/-- Resolution of the window end as the spec states it: the parsed to, else now. -/
def baseTo (now : Int) (o : QueryOptions) : Int :=
  match o.toOpt with
  | some t => civilToDayNum t
  | none => now

/-- Initial window start as the spec states it: the parsed from, else a copy of to. -/
def baseFrom (now : Int) (o : QueryOptions) : Int :=
  match o.fromOpt with
  | some f => civilToDayNum f
  | none => baseTo now o

/-- Exactly one duration subtracted from f, chosen by priority d then w then m then
y (per the spec's window algorithm): d days, or w * 7 days, or m months, or y * 12
months, month arithmetic being ECMA setMonth.  Written independently of resolveDates
so the decomposition theorems relate the transcription to this statement. -/
def durationBack (o : QueryOptions) (f : Int) : Int :=
  match o.d with
  | some dv => f - dv
  | none =>
    match o.w with
    | some wv => f - wv * 7
    | none =>
      match o.m with
      | some mv => jsSetMonth f (jsGetMonth f - mv)
      | none => jsSetMonth f (jsGetMonth f - o.y * 12)

/-- Week alignment as the spec states it: snap f back to the most recent day with
day-of-week index 0 (Sunday); the identity when f already is one. -/
def weekAlignBack (f : Int) : Int := f - jsGetDay f

/-- QueryResponse.Day (src/type.ts): one upstream day with count, date and the
categorical contributionLevel. -/
structure QDay where
  count : Int
  date : String
  contributionLevel : String
deriving DecidableEq, Repr

/-- QueryResponse.Week: days: Day[]. -/
structure QWeek where
  days : List QDay
deriving DecidableEq, Repr

/-- QueryResponse.Calendar: total: number; weeks: Week[]. -/
structure QCalendar where
  total : Int
  weeks : List QWeek
deriving DecidableEq, Repr

/-- Contributions.Activity (src/type.ts): count, date, and the numeric level. -/
structure Activity where
  count : Int
  date : String
  level : Int
deriving DecidableEq, Repr

/-- mapActivityLevel (src/contributions.ts lines 120-124):
map.includes(level) ? map.indexOf(level) : 0 over the fixed ordered vocabulary. -/
def mapActivityLevel (level : String) : Int :=
  let lvlMap := ["NONE", "FIRST_QUARTILE", "SECOND_QUARTILE", "THIRD_QUARTILE",
    "FOURTH_QUARTILE"]
  if lvlMap.contains level then (lvlMap.indexOf level : Int) else 0

/-- The record pushed per upstream day by mapContributions' inner loop. -/
def actOfDay (act : QDay) : Activity :=
  { count := act.count, date := act.date, level := mapActivityLevel act.contributionLevel }

/-- mapContributions (src/contributions.ts lines 106-118): two nested for-of loops
pushing one Activity per day onto an accumulator. -/
def mapContributions (calendar : QCalendar) : List Activity :=
  calendar.weeks.foldl
    (fun activities week => week.days.foldl (fun acts act => acts ++ [actOfDay act]) activities)
    []

/-- toCsv (src/contributions.ts lines 130-134): header "date,count,level", one
template-string row per activity, and [header, ...rows].join("\n") (String
.intercalate is exactly Array.prototype.join). -/
def toCsv (activities : List Activity) : String :=
  let header := "date,count,level"
  let rows := activities.map (fun a => a.date ++ "," ++ toString a.count ++ "," ++ toString a.level)
  String.intercalate "\n" (header :: rows)

-- helpers for the C5 proof

/-- Numeric value of a decimal digit character. -/
def digitVal (c : Char) : Nat := c.toNat - 48

/-- A nonempty all-digit string read as a natural number, none otherwise. -/
def parseNatDigits (cs : List Char) : Option Nat :=
  if cs.isEmpty then none
  else cs.foldl
    (fun acc c =>
      match acc with
      | none => none
      | some n => if c.isDigit then some (10 * n + digitVal c) else none)
    (some 0)

/-- Model of zod's z.coerce.number(...).int(...) applied to a query-string value:
Number(s) followed by the integer check.  Optionally-signed decimal integer numerals
coerce to their value; everything else (NaN cases and non-integers alike) is rejected,
and both rejections carry the same message in the schema, so collapsing them loses
nothing. -/
def jsIntOfString (s : String) : Option Int :=
  match s.toList with
  | '-' :: rest => (parseNatDigits rest).map (fun n => -(n : Int))
  | cs => (parseNatDigits cs).map (fun n => (n : Int))

/-- Gregorian leap-year rule. -/
def isLeapYear (y : Int) : Bool := (y % 4 == 0 && y % 100 != 0) || y % 400 == 0

/-- Number of days of month m of year y. -/
def monthLen (y m : Int) : Int :=
  if m = 2 then (if isLeapYear y then 29 else 28)
  else if m = 4 ∨ m = 6 ∨ m = 9 ∨ m = 11 then 30
  else 31

/-- Model of z.iso.date combined with new Date(s): ten characters shaped
DDDD-DD-DD with a real calendar month and day.  (The zod regex alone admits
nonexistent dates such as 2024-02-31, which the Date constructor then maps to an
Invalid Date; the model draws the validity line at real dates instead.) -/
def parseIsoDate (s : String) : Option CivilDate :=
  match s.toList with
  | [y1, y2, y3, y4, '-', m1, m2, '-', d1, d2] =>
    if (y1.isDigit && y2.isDigit && y3.isDigit && y4.isDigit &&
        m1.isDigit && m2.isDigit && d1.isDigit && d2.isDigit) then
      let y : Int := (1000 * digitVal y1 + 100 * digitVal y2 + 10 * digitVal y3
        + digitVal y4 : Nat)
      let m : Int := (10 * digitVal m1 + digitVal m2 : Nat)
      let d : Int := (10 * digitVal d1 + digitVal d2 : Nat)
      if 1 ≤ m ∧ m ≤ 12 ∧ 1 ≤ d ∧ d ≤ monthLen y m then some ⟨y, m, d⟩ else none
    else none
  | _ => none

/-- The raw query string: Object.fromEntries(url.searchParams) restricted to the
keys the schema reads; an absent key is none.  fromS/toS stand for from/to. -/
structure RawQuery where
  fromS : Option String
  toS : Option String
  dS : Option String
  wS : Option String
  mS : Option String
  yS : Option String
  formatS : Option String
deriving DecidableEq, Repr

/-- One optional ISO-date field of zQueryParams: absent passes, malformed fails
with the field's message. -/
def vDateField (msg : String) : Option String → Except String (Option CivilDate)
  | none => .ok none
  | some s =>
    match parseIsoDate s with
    | some c => .ok (some c)
    | none => .error msg

/-- One optional duration field: absent passes; non-integer fails with the integer
message; an integer below 1 fails with the min message. -/
def vDurField (intMsg minMsg : String) : Option String → Except String (Option Int)
  | none => .ok none
  | some s =>
    match jsIntOfString s with
    | none => .error intMsg
    | some v => if v < 1 then .error minMsg else .ok (some v)

/-- The y field: as a duration field, but .default(1) makes an absent y parse to 1. -/
def vYearField : Option String → Except String Int
  | none => .ok 1
  | some s =>
    match jsIntOfString s with
    | none => .error "'y' (year) must be an integer"
    | some v => if v < 1 then .error "'y' (year) must be greater than 1" else .ok v

/-- The format field: z.enum(["json", "csv"]).default("json"). -/
def vFormatField : Option String → Except String OutFmt
  | none => .ok .json
  | some s =>
    if s = "json" then .ok .json
    else if s = "csv" then .ok .csv
    else .error "'format' must be 'json' or 'csv'"

/-- zQueryParams.safeParse (src/contributions.ts lines 4-36): fields checked in
declaration order from, to, d, w, m, y, format; the Except short-circuit returns the
first offending field's message, which is what parsed.error.issues[0].message reads. -/
def validateQuery (q : RawQuery) : Except String QueryOptions := do
  let fv ← vDateField "'from' must be in valid iso date format (YYYY-MM-DD)" q.fromS
  let tv ← vDateField "'to' must be in valid iso date format (YYYY-MM-DD)" q.toS
  let dv ← vDurField "'d' (days) must be an integer" "'d' (days) must be greater than 1" q.dS
  let wv ← vDurField "'w' (weeks) must be an integer" "'w' (weeks) must be greater than 1" q.wS
  let mv ← vDurField "'m' (months) must be an integer" "'m' (months) must be greater than 1" q.mS
  let yv ← vYearField q.yS
  let fmt ← vFormatField q.formatS
  return { fromOpt := fv, toOpt := tv, d := dv, w := wv, m := mv, y := yv, format := fmt }

/-- Outcome of the one outbound fetch of getContributions: a parsed calendar, or a
failure (network error or a body res.json() cannot parse) - the two events the
source's try/catch collapses. -/
inductive UpstreamResult
  | success (calendar : QCalendar)
  | failure
deriving DecidableEq, Repr

/-- getContributions (src/contributions.ts lines 76-104) over the fetch outcome: on
success the calendar under data.user.contributionsCollection.contributionCalendar, on
failure a thrown Error with the fixed message.  The function makes exactly one
attempt; there is no retry. -/
def getContributions : UpstreamResult → Except String QCalendar
  | .success calendar => .ok calendar
  | .failure => .error "Failed to fetch contributions data from GitHub"

/-- Left-pad with zeros to the given width. -/
def padZeroes (len : Nat) (s : String) : String :=
  String.mk (List.replicate (len - s.length) '0') ++ s

/-- toIsoDate (src/contributions.ts lines 126-128): date.toISOString().slice(0, 10),
the YYYY-MM-DD part of the UTC instant. -/
def toIsoDate (z : Int) : String :=
  let c := civilFromDays z
  padZeroes 4 (toString c.year) ++ "-" ++ padZeroes 2 (toString c.month) ++ "-"
    ++ padZeroes 2 (toString c.day)

/-- Contributions.Data (src/type.ts): the JSON success body { to, from, total,
activities }. -/
structure ContribData where
  toS : String
  fromS : String
  total : Int
  activities : List Activity
deriving DecidableEq, Repr

/-- The three response bodies the route produces: an { error, message } object, the
JSON data body, or a text/csv body. -/
inductive ResponseBody
  | errObj (error : String) (message : String)
  | jsonData (data : ContribData)
  | csvText (text : String)
deriving DecidableEq, Repr

/-- An HTTP response: status code and body. -/
structure RouteResponse where
  status : Nat
  body : ResponseBody
deriving DecidableEq, Repr

/-- getContributionsRoute (src/contributions.ts lines 38-74): validate the query
(400 { error: "Invalid options", message } on failure), resolve the window, fetch and
map the calendar (any thrown error becomes 500 { error: "Server error", message }),
then render csv or json according to format. -/
def getContributionsRoute (now : Int) (q : RawQuery) (upstream : UpstreamResult) :
    RouteResponse :=
  match validateQuery q with
  | .error message => ⟨400, .errObj "Invalid options" message⟩
  | .ok opts =>
    match getContributions upstream with
    | .error message => ⟨500, .errObj "Server error" message⟩
    | .ok calendar =>
      let dates := resolveDates now opts
      let activities := mapContributions calendar
      match opts.format with
      | .csv => ⟨200, .csvText (toCsv activities)⟩
      | .json =>
        ⟨200, .jsonData ⟨toIsoDate dates.toD, toIsoDate dates.fromD, calendar.total,
          activities⟩⟩

/-! ### Theorems -/

theorem uAtYearStart : ∀ y : Nat, y < 400 → 365 * (y : Int) ≤ hinnantU (yearStartDoe y) := by decide

theorem uBeforeYearStart : ∀ y : Nat, y < 400 → 1 ≤ y →
    hinnantU (yearStartDoe y - 1) ≤ 365 * (y : Int) - 1 := by decide

theorem hinnantU_step (n : Int) : hinnantU n ≤ hinnantU (n + 1) := by
  unfold hinnantU; omega

theorem hinnantU_mono {a b : Int} (h : a ≤ b) : hinnantU a ≤ hinnantU b := by
  exact @Int.le_induction (fun x => hinnantU a ≤ hinnantU x) a (le_refl _)
    (fun n _ ih => le_trans ih (hinnantU_step n)) b h

theorem yearStart_succ_le (y : Int) : yearStartDoe (y + 1) ≤ yearStartDoe y + 366 := by
  unfold yearStartDoe; omega

theorem u_final : hinnantU 146096 = 145999 := by decide

-- the key bounds

theorem doeYear_bounds (n : Int) (h0 : 0 ≤ n) (h1 : n ≤ 146096) :
    0 ≤ hinnantU n / 365 ∧ hinnantU n / 365 ≤ 399 ∧
    yearStartDoe (hinnantU n / 365) ≤ n ∧ n ≤ yearStartDoe (hinnantU n / 365) + 365 := by
  have hu0 : 0 ≤ hinnantU n := by unfold hinnantU; omega
  have hu1 : hinnantU n ≤ 145999 := u_final ▸ hinnantU_mono h1
  set y := hinnantU n / 365 with hy
  have hy0 : 0 ≤ y := by omega
  have hy1 : y ≤ 399 := by omega
  have hyu : 365 * y ≤ hinnantU n ∧ hinnantU n ≤ 365 * y + 364 := by omega
  refine ⟨hy0, hy1, ?_, ?_⟩
  · by_contra hlt
    push_neg at hlt
    have hy1' : 1 ≤ y := by
      rcases Int.lt_or_le 0 y with h | h
      · omega
      · exfalso
        have : y = 0 := le_antisymm h hy0
        rw [this] at hlt
        simp [yearStartDoe] at hlt
        omega
    have hcast : ((y.toNat : Int)) = y := Int.toNat_of_nonneg hy0
    have hchk := uBeforeYearStart y.toNat (by omega) (by omega)
    rw [hcast] at hchk
    have hmono : hinnantU n ≤ hinnantU (yearStartDoe y - 1) := hinnantU_mono (by omega)
    omega
  · by_contra hgt
    push_neg at hgt
    rcases Int.lt_or_le y 399 with hlt399 | hge
    · have hcast : (((y + 1).toNat : Int)) = y + 1 := Int.toNat_of_nonneg (by omega)
      have hchk := uAtYearStart (y + 1).toNat (by omega)
      rw [hcast] at hchk
      have hstep := yearStart_succ_le y
      have hmono : hinnantU (yearStartDoe (y + 1)) ≤ hinnantU n := hinnantU_mono (by omega)
      omega
    · have : y = 399 := by omega
      rw [this] at hgt
      have : yearStartDoe 399 = 145731 := by decide
      omega

example : daysFromCivil 1970 1 1 = 0 := by decide

example : daysFromCivil 2024 1 1 = 19723 := by decide

example : civilFromDays 0 = ⟨1970, 1, 1⟩ := by decide

example : civilFromDays 19723 = ⟨2024, 1, 1⟩ := by decide

example : civilFromDays 19782 = ⟨2024, 2, 29⟩ := by decide

example : daysFromCivil 2024 2 29 = 19782 := by decide

example : civilFromDays (-1) = ⟨1969, 12, 31⟩ := by decide

example : daysFromCivil 1969 12 31 = -1 := by decide

example : civilFromDays 11016 = ⟨2000, 2, 29⟩ := by decide

example : civilFromDays 11017 = ⟨2000, 3, 1⟩ := by decide

example : civilFromDays (-25509) = ⟨1900, 2, 28⟩ := by decide

example : civilFromDays (-25508) = ⟨1900, 3, 1⟩ := by decide

theorem daysFromCivil_recompose (era yoe mp d : Int)
    (hy0 : 0 ≤ yoe) (hy1 : yoe ≤ 399) (hmp0 : 0 ≤ mp) (hmp1 : mp ≤ 11) :
    daysFromCivil
      (yoe + era * 400 + (if (if mp < 10 then mp + 3 else mp - 9) ≤ 2 then 1 else 0))
      (if mp < 10 then mp + 3 else mp - 9) d
    = era * 146097 + (yoe * 365 + yoe / 4 - yoe / 100 + ((153 * mp + 2) / 5 + d - 1))
      - 719468 := by
  unfold daysFromCivil
  by_cases hlt : mp < 10
  · simp only [if_pos hlt]
    have h2 : ¬ (mp + 3 ≤ 2) := by omega
    have h2' : 2 < mp + 3 := by omega
    simp only [if_neg h2, if_pos h2']
    have hE : (yoe + era * 400 + 0) / 400 = era := by omega
    rw [show yoe + era * 400 + 0 = yoe + era * 400 by ring]
    have hE' : (yoe + era * 400) / 400 = era := by omega
    rw [hE']
    ring_nf
  · simp only [if_neg hlt]
    have h2 : mp - 9 ≤ 2 := by omega
    have h2' : ¬ (2 < mp - 9) := by omega
    simp only [if_pos h2, if_neg h2']
    rw [show yoe + era * 400 + 1 - 1 = yoe + era * 400 by ring]
    have hE' : (yoe + era * 400) / 400 = era := by omega
    rw [hE']
    ring_nf

theorem daysFromCivil_civilFromDays (z : Int) :
    daysFromCivil (civilFromDays z).year (civilFromDays z).month (civilFromDays z).day = z := by
  have hdoe0 : 0 ≤ (z + 719468) % 146097 := Int.emod_nonneg _ (by norm_num)
  have hdoe1 : (z + 719468) % 146097 ≤ 146096 := by
    have := Int.emod_lt_of_pos (z + 719468) (b := 146097) (by norm_num)
    omega
  obtain ⟨hy0, hy1, hs0, hs1⟩ := doeYear_bounds ((z + 719468) % 146097) hdoe0 hdoe1
  simp only [civilFromDays]
  set era := (z + 719468) / 146097 with hera
  set doe := (z + 719468) % 146097 with hdoeDef
  set yoe := hinnantU doe / 365 with hyoe
  set doy := doe - yearStartDoe yoe with hdoy
  have hdoy0 : 0 ≤ doy := by omega
  have hdoy1 : doy ≤ 365 := by omega
  set mp := (5 * doy + 2) / 153 with hmp
  have hmp0 : 0 ≤ mp := by omega
  have hmp1 : mp ≤ 11 := by omega
  have hfrac : (153 * mp + 2) / 5 ≤ doy := by omega
  rw [daysFromCivil_recompose era yoe mp _ hy0 hy1 hmp0 hmp1]
  have hzdecomp : 146097 * era + doe = z + 719468 := Int.ediv_add_emod _ _
  unfold yearStartDoe at hdoy
  omega

-- first day of the absolute month A (A = 12 * year + zero-based month)

theorem daysFromCivil_month_step (q m : Int) (h1 : 2 ≤ m) (h2 : m ≤ 12) :
    daysFromCivil q (m - 1) 1 + 28 ≤ daysFromCivil q m 1 := by
  simp only [daysFromCivil]
  interval_cases m <;> norm_num <;> omega

theorem daysFromCivil_year_step (q : Int) :
    daysFromCivil (q - 1) 12 1 + 28 ≤ daysFromCivil q 1 1 := by
  simp only [daysFromCivil]
  norm_num
  omega

theorem monthStartDay_prev (a : Int) : monthStartDay (a - 1) + 28 ≤ monthStartDay a := by
  have hr0 : 0 ≤ a % 12 := Int.emod_nonneg _ (by norm_num)
  have hr1 : a % 12 < 12 := Int.emod_lt_of_pos _ (by norm_num)
  have hd : 12 * (a / 12) + a % 12 = a := Int.ediv_add_emod _ _
  have hr0' : 0 ≤ (a - 1) % 12 := Int.emod_nonneg _ (by norm_num)
  have hr1' : (a - 1) % 12 < 12 := Int.emod_lt_of_pos _ (by norm_num)
  have hd' : 12 * ((a - 1) / 12) + (a - 1) % 12 = a - 1 := Int.ediv_add_emod _ _
  unfold monthStartDay
  rcases (show ((a - 1) % 12 = a % 12 - 1 ∧ (a - 1) / 12 = a / 12 ∧ 1 ≤ a % 12) ∨
      (a % 12 = 0 ∧ (a - 1) % 12 = 11 ∧ (a - 1) / 12 = a / 12 - 1) by omega) with
    ⟨e1, e2, e3⟩ | ⟨e1, e2, e3⟩
  · rw [e1, e2]
    have := daysFromCivil_month_step (a / 12) (a % 12 + 1) (by omega) (by omega)
    calc daysFromCivil (a / 12) (a % 12 - 1 + 1) 1 + 28
        = daysFromCivil (a / 12) (a % 12 + 1 - 1) 1 + 28 := by ring_nf
      _ ≤ daysFromCivil (a / 12) (a % 12 + 1) 1 := this
  · rw [e1, e2, e3]
    norm_num
    exact daysFromCivil_year_step (a / 12)

/-- going back k months from month-start never loses fewer than 28 days per month -/
theorem monthStartDay_sub (a : Int) (k : Nat) :
    monthStartDay (a - k) + 28 * k ≤ monthStartDay a := by
  induction k with
  | zero => simp
  | succ n ih =>
    have h1 := monthStartDay_prev (a - n)
    have h2 : a - (n + 1 : Nat) = (a - n) - 1 := by push_cast; ring
    rw [h2]
    push_cast
    push_cast at ih
    omega

theorem civilFromDays_month_bounds (z : Int) :
    1 ≤ (civilFromDays z).month ∧ (civilFromDays z).month ≤ 12 := by
  have hdoe0 : 0 ≤ (z + 719468) % 146097 := Int.emod_nonneg _ (by norm_num)
  have hdoe1 : (z + 719468) % 146097 ≤ 146096 := by
    have := Int.emod_lt_of_pos (z + 719468) (b := 146097) (by norm_num)
    omega
  obtain ⟨hy0, hy1, hs0, hs1⟩ := doeYear_bounds ((z + 719468) % 146097) hdoe0 hdoe1
  simp only [civilFromDays]
  split <;> omega

theorem daysFromCivil_day_linear (y m d : Int) :
    daysFromCivil y m d = daysFromCivil y m 1 + (d - 1) := by
  simp only [daysFromCivil]
  split <;> omega

theorem jsMakeDay_monthStart (y mo dt : Int) :
    jsMakeDay y mo dt = monthStartDay (12 * y + mo) + (dt - 1) := by
  unfold jsMakeDay monthStartDay
  have h1 : (12 * y + mo) / 12 = y + mo / 12 := by omega
  have h2 : (12 * y + mo) % 12 = mo % 12 := by omega
  rw [h1, h2]

theorem monthStart_decomp (z : Int) :
    z = monthStartDay (12 * jsGetFullYear z + jsGetMonth z) + (jsGetDate z - 1) := by
  obtain ⟨hm1, hm2⟩ := civilFromDays_month_bounds z
  unfold jsGetFullYear jsGetMonth jsGetDate monthStartDay
  have h1 : (12 * (civilFromDays z).year + ((civilFromDays z).month - 1)) / 12 =
      (civilFromDays z).year := by omega
  have h2 : (12 * (civilFromDays z).year + ((civilFromDays z).month - 1)) % 12 =
      (civilFromDays z).month - 1 := by omega
  rw [h1, h2]
  have h3 : (civilFromDays z).month - 1 + 1 = (civilFromDays z).month := by ring
  rw [h3]
  have := daysFromCivil_day_linear (civilFromDays z).year (civilFromDays z).month
    (civilFromDays z).day
  have hrt := daysFromCivil_civilFromDays z
  omega

theorem jsSetDate_shift (z dt : Int) : jsSetDate z dt = z - jsGetDate z + dt := by
  unfold jsSetDate
  rw [jsMakeDay_monthStart]
  have := monthStart_decomp z
  omega

theorem jsSetMonth_back (z k : Int) (hk : 1 ≤ k) :
    jsSetMonth z (jsGetMonth z - k) ≤ z - 28 := by
  unfold jsSetMonth
  rw [jsMakeDay_monthStart]
  have hdec := monthStart_decomp z
  have hsub := monthStartDay_sub (12 * jsGetFullYear z + jsGetMonth z) k.toNat
  have hcast : (k.toNat : Int) = k := Int.toNat_of_nonneg (by omega)
  rw [hcast] at hsub
  have harg : 12 * jsGetFullYear z + (jsGetMonth z - k) =
      12 * jsGetFullYear z + jsGetMonth z - k := by ring
  rw [harg]
  omega

theorem jsGetDay_sub_self (z : Int) : jsGetDay (z - jsGetDay z) = 0 := by
  unfold jsGetDay
  omega

theorem jsGetDay_bounds (z : Int) : 0 ≤ jsGetDay z ∧ jsGetDay z ≤ 6 := by
  unfold jsGetDay
  omega

theorem jsSetDate_sub (z k : Int) : jsSetDate z (jsGetDate z - k) = z - k := by
  rw [jsSetDate_shift]
  ring

theorem align_if_eq2 (f1 : Int) :
    (if (jsGetDay f1 != 0) = true then f1 - jsGetDay f1 else f1) = weekAlignBack f1 := by
  unfold weekAlignBack
  by_cases hz : jsGetDay f1 = 0
  · simp [hz]
  · simp [hz]

theorem align_if_eq (f1 : Int) :
    (if (jsGetDay f1 != 0) = true then jsSetDate f1 (jsGetDate f1 - jsGetDay f1) else f1) =
      weekAlignBack f1 := by
  unfold weekAlignBack
  by_cases hz : jsGetDay f1 = 0
  · simp [hz]
  · simp only [hz, bne_iff_ne, ne_eq, not_false_iff, if_pos, jsSetDate_sub]

theorem resolveDates_split (now : Int) (o : QueryOptions) (h : o.Valid) :
    resolveDates now o =
      { toD := baseTo now o,
        fromD := weekAlignBack (durationBack o (baseFrom now o)) } := by
  obtain ⟨foO, toO, dO, wO, mO, yv, fmt⟩ := o
  obtain ⟨hd, hw, hm, hy⟩ := h
  rcases dO with _ | dv
  · rcases wO with _ | wv
    · rcases mO with _ | mv
      · have hy9 : 1 ≤ yv := hy
        have hyne : (yv != 0) = true := by
          simp only [bne_iff_ne, ne_eq]
          omega
        simp only [resolveDates, baseTo, baseFrom, durationBack, jsTruthy, hyne,
          Bool.false_eq_true, if_false, if_true, align_if_eq]
      · have hmv : 1 ≤ mv := hm mv rfl
        have hmne : (mv != 0) = true := by
          simp only [bne_iff_ne, ne_eq]
          omega
        simp only [resolveDates, baseTo, baseFrom, durationBack, jsTruthy, hmne,
          Bool.false_eq_true, if_false, if_true, Option.getD_some, align_if_eq]
    · have hwv : 1 ≤ wv := hw wv rfl
      have hwne : (wv != 0) = true := by
        simp only [bne_iff_ne, ne_eq]
        omega
      simp only [resolveDates, baseTo, baseFrom, durationBack, jsTruthy, hwne,
        Bool.false_eq_true, if_false, if_true, Option.getD_some, jsSetDate_sub, align_if_eq2]
  · have hdv : 1 ≤ dv := hd dv rfl
    have hdne : (dv != 0) = true := by
      simp only [bne_iff_ne, ne_eq]
      omega
    simp only [resolveDates, baseTo, baseFrom, durationBack, jsTruthy, hdne,
      Bool.false_eq_true, if_false, if_true, Option.getD_some, jsSetDate_sub, align_if_eq2]

theorem foldl_push_days (l : List QDay) (acc : List Activity) :
    l.foldl (fun acts act => acts ++ [actOfDay act]) acc = acc ++ l.map actOfDay := by
  induction l generalizing acc with
  | nil => simp
  | cons a t ih => simp [ih]

theorem mapContributions_flatten (calendar : QCalendar) :
    mapContributions calendar =
      (calendar.weeks.map (fun week => week.days.map actOfDay)).flatten := by
  unfold mapContributions
  suffices hgen : ∀ (ws : List QWeek) (acc : List Activity),
      ws.foldl (fun activities week =>
        week.days.foldl (fun acts act => acts ++ [actOfDay act]) activities) acc =
      acc ++ (ws.map (fun week => week.days.map actOfDay)).flatten by
    simpa using hgen calendar.weeks []
  intro ws
  induction ws with
  | nil => simp
  | cons wk t ih =>
    intro acc
    simp only [List.foldl_cons, List.map_cons, List.flatten_cons]
    rw [ih, foldl_push_days, List.append_assoc]

example : toIsoDate 19723 = "2024-01-01" := by decide

example : jsIntOfString "0" = some 0 := by decide

example : jsIntOfString "-3" = some (-3) := by decide

example : jsIntOfString "x2" = none := by decide

example : parseIsoDate "2024-01-01" = some ⟨2024, 1, 1⟩ := by decide

example : parseIsoDate "2024-02-30" = none := by decide

example : parseIsoDate "2024-1-1" = none := by decide

theorem durationBack_le (o : QueryOptions) (h : o.Valid) (x : Int) :
    durationBack o x ≤ x - 1 := by
  obtain ⟨foO, toO, dO, wO, mO, yv, fmt⟩ := o
  obtain ⟨hd, hw, hm, hy⟩ := h
  rcases dO with _ | dv
  · rcases wO with _ | wv
    · rcases mO with _ | mv
      · have hy9 : 1 ≤ yv := hy
        have hb := jsSetMonth_back x (yv * 12) (by omega)
        simp only [durationBack]
        omega
      · have hmv : 1 ≤ mv := hm mv rfl
        have hb := jsSetMonth_back x mv (by omega)
        simp only [durationBack]
        omega
    · have hwv : 1 ≤ wv := hw wv rfl
      simp only [durationBack]
      omega
  · have hdv : 1 ≤ dv := hd dv rfl
    simp only [durationBack]
    omega

theorem go_foldl (s : String) (l : List String) : ∀ acc : String,
    String.intercalate.go acc s l = l.foldl (fun acc r => acc ++ s ++ r) acc := by
  induction l with
  | nil => intro acc; rfl
  | cons a t ih => intro acc; rw [String.intercalate.go, List.foldl_cons, ih]

theorem intercalate_foldl (s h : String) (rows : List String) :
    String.intercalate s (h :: rows) = rows.foldl (fun acc r => acc ++ s ++ r) h := by
  rw [String.intercalate, go_foldl]

/-- C1 (amended): for every validated QueryOptions, resolveDates resolves `to` to the
parsed `to` (else `now`), initialises `from` to the parsed `from` (else a copy of `to`),
then UNCONDITIONALLY subtracts exactly one duration chosen by priority d then w then m
then y (y defaulting to 1), and finally snaps `from` back to the previous Sunday; the
subtraction is applied even when `from` was given explicitly. -/
theorem resolveDates_window_formula (now : Int) (o : QueryOptions) (h : o.Valid) :
    resolveDates now o =
      { toD := baseTo now o,
        fromD := weekAlignBack (durationBack o (baseFrom now o)) } :=
  resolveDates_split now o h

/-- C1 witness: the no-parameter options (all fields absent, y defaulted to 1) are valid
and resolve to `to` = now and `from` = now minus 12 months, week-aligned backward. -/
theorem resolveDates_window_formula_witness :
    (QueryOptions.mk none none none none none 1 .json).Valid ∧
    resolveDates 19723 ⟨none, none, none, none, none, 1, .json⟩ =
      { toD := 19723,
        fromD := weekAlignBack (durationBack ⟨none, none, none, none, none, 1, .json⟩
          (baseFrom 19723 ⟨none, none, none, none, none, 1, .json⟩)) } :=
  ⟨by decide, resolveDates_window_formula 19723 ⟨none, none, none, none, none, 1, .json⟩
    (by decide)⟩

/-- C1 counterexample: an explicitly supplied `from` (2024-06-16, itself a Sunday, so
week alignment alone could not move it) is not preserved: the resolved `from` differs
from the parsed `from` because the default one-year duration is still subtracted. -/
theorem resolveDates_explicit_from_not_preserved :
    validateQuery ⟨some "2024-06-16", some "2024-06-16", none, none, none, none, none⟩ =
      .ok ⟨some ⟨2024, 6, 16⟩, some ⟨2024, 6, 16⟩, none, none, none, 1, .json⟩ ∧
    jsGetDay (civilToDayNum ⟨2024, 6, 16⟩) = 0 ∧
    (resolveDates 20000 ⟨some ⟨2024, 6, 16⟩, some ⟨2024, 6, 16⟩, none, none, none, 1,
      .json⟩).fromD ≠ civilToDayNum ⟨2024, 6, 16⟩ := by
  decide

/-- C2 (amended): when both `from` and `to` are supplied, the resolved `to` is exactly
the parsed `to`, but the duration parameters are NOT ignored: the resolved `from` is the
parsed `from` minus one duration (y defaulting to 1), then week-aligned backward. -/
theorem resolveDates_explicit_from_to_formula (now : Int) (o : QueryOptions) (h : o.Valid)
    (f t : CivilDate) (hf : o.fromOpt = some f) (ht : o.toOpt = some t) :
    resolveDates now o =
      { toD := civilToDayNum t,
        fromD := weekAlignBack (durationBack o (civilToDayNum f)) } := by
  have hsplit := resolveDates_split now o h
  unfold baseTo baseFrom at hsplit
  rw [hf, ht] at hsplit
  exact hsplit

/-- C2 witness: the formula applied to from=2024-01-01, to=2024-01-31 with no duration
parameters. -/
theorem resolveDates_explicit_from_to_formula_witness :
    (QueryOptions.mk (some ⟨2024, 1, 1⟩) (some ⟨2024, 1, 31⟩) none none none 1 .json).Valid ∧
    resolveDates 20000 ⟨some ⟨2024, 1, 1⟩, some ⟨2024, 1, 31⟩, none, none, none, 1, .json⟩ =
      { toD := civilToDayNum ⟨2024, 1, 31⟩,
        fromD := weekAlignBack (durationBack
          ⟨some ⟨2024, 1, 1⟩, some ⟨2024, 1, 31⟩, none, none, none, 1, .json⟩
          (civilToDayNum ⟨2024, 1, 1⟩)) } :=
  ⟨by decide, resolveDates_explicit_from_to_formula 20000 _ (by decide) ⟨2024, 1, 1⟩
    ⟨2024, 1, 31⟩ rfl rfl⟩

/-- C2 counterexample: for from=2024-01-01 and to=2024-01-31 (validated, no duration
parameters) the resolved window is [2023-01-01, 2024-01-31], not [2024-01-01, 2024-01-31]:
the default one-year duration is subtracted from the explicit `from`. -/
theorem resolveDates_explicit_window_not_exact :
    validateQuery ⟨some "2024-01-01", some "2024-01-31", none, none, none, none, none⟩ =
      .ok ⟨some ⟨2024, 1, 1⟩, some ⟨2024, 1, 31⟩, none, none, none, 1, .json⟩ ∧
    resolveDates 20000 ⟨some ⟨2024, 1, 1⟩, some ⟨2024, 1, 31⟩, none, none, none, 1, .json⟩ ≠
      { toD := civilToDayNum ⟨2024, 1, 31⟩, fromD := civilToDayNum ⟨2024, 1, 1⟩ } ∧
    resolveDates 20000 ⟨some ⟨2024, 1, 1⟩, some ⟨2024, 1, 31⟩, none, none, none, 1, .json⟩ =
      { toD := civilToDayNum ⟨2024, 1, 31⟩, fromD := civilToDayNum ⟨2023, 1, 1⟩ } := by
  decide

/-- C3: after duration subtraction the computed `from` is snapped backward to the most
recent Sunday (JS day index 0): the resolved `from` equals the post-subtraction value
minus its day-of-week index, lands on day index 0, moves back at most 6 days, and is
unchanged when the post-subtraction value already falls on a Sunday. -/
theorem resolveDates_week_alignment (now : Int) (o : QueryOptions) (h : o.Valid) :
    (resolveDates now o).fromD =
      durationBack o (baseFrom now o) - jsGetDay (durationBack o (baseFrom now o)) ∧
    jsGetDay ((resolveDates now o).fromD) = 0 ∧
    (resolveDates now o).fromD ≤ durationBack o (baseFrom now o) ∧
    durationBack o (baseFrom now o) - (resolveDates now o).fromD ≤ 6 ∧
    (jsGetDay (durationBack o (baseFrom now o)) = 0 →
      (resolveDates now o).fromD = durationBack o (baseFrom now o)) := by
  have hfd : (resolveDates now o).fromD =
      durationBack o (baseFrom now o) - jsGetDay (durationBack o (baseFrom now o)) := by
    rw [resolveDates_split now o h]
    rfl
  have hb := jsGetDay_bounds (durationBack o (baseFrom now o))
  refine ⟨hfd, ?_, by omega, by omega, by omega⟩
  rw [hfd]
  exact jsGetDay_sub_self _

/-- C3 witness: with to=2024-01-31 and d=27 supplied (from absent) the post-subtraction
value 2024-01-04 is a Thursday and snaps back four days to Sunday 2023-12-31; with d=24
it is Sunday 2024-01-07 and stays unchanged. -/
theorem resolveDates_week_alignment_witness :
    (QueryOptions.mk none (some ⟨2024, 1, 31⟩) (some 27) none none 1 .json).Valid ∧
    (resolveDates 20000 ⟨none, some ⟨2024, 1, 31⟩, some 27, none, none, 1, .json⟩).fromD =
      durationBack ⟨none, some ⟨2024, 1, 31⟩, some 27, none, none, 1, .json⟩
        (baseFrom 20000 ⟨none, some ⟨2024, 1, 31⟩, some 27, none, none, 1, .json⟩) -
      jsGetDay (durationBack ⟨none, some ⟨2024, 1, 31⟩, some 27, none, none, 1, .json⟩
        (baseFrom 20000 ⟨none, some ⟨2024, 1, 31⟩, some 27, none, none, 1, .json⟩)) :=
  ⟨by decide,
    (resolveDates_week_alignment 20000 ⟨none, some ⟨2024, 1, 31⟩, some 27, none, none, 1,
      .json⟩ (by decide)).1⟩

/-- C10: the week-alignment step is applied unconditionally: for every options value
(explicit `from` or not, durations or not) the resolved `from` falls on JS day-of-week
index 0 (Sunday). -/
theorem resolveDates_from_always_sunday (now : Int) (o : QueryOptions) :
    jsGetDay ((resolveDates now o).fromD) = 0 := by
  simp only [resolveDates, jsSetDate_sub, align_if_eq2]
  exact jsGetDay_sub_self _

/-- C4: mapActivityLevel maps the fixed vocabulary NONE, FIRST_QUARTILE,
SECOND_QUARTILE, THIRD_QUARTILE, FOURTH_QUARTILE to its index 0-4, maps every
unrecognized string to 0, and always returns an integer in [0, 4] (it is a total
function, so it can never throw). -/
theorem mapActivityLevel_total_range :
    mapActivityLevel "NONE" = 0 ∧ mapActivityLevel "FIRST_QUARTILE" = 1 ∧
    mapActivityLevel "SECOND_QUARTILE" = 2 ∧ mapActivityLevel "THIRD_QUARTILE" = 3 ∧
    mapActivityLevel "FOURTH_QUARTILE" = 4 ∧
    (∀ s : String,
      s ∉ (["NONE", "FIRST_QUARTILE", "SECOND_QUARTILE", "THIRD_QUARTILE",
        "FOURTH_QUARTILE"] : List String) → mapActivityLevel s = 0) ∧
    (∀ s : String, 0 ≤ mapActivityLevel s ∧ mapActivityLevel s ≤ 4) := by
  refine ⟨by decide, by decide, by decide, by decide, by decide, ?_, ?_⟩
  · intro s hs
    simp only [mapActivityLevel]
    split
    · rename_i hcond
      exact absurd (by simpa using hcond) hs
    · rfl
  · intro s
    simp only [mapActivityLevel]
    split
    · rename_i hcond
      have hmem : s ∈ (["NONE", "FIRST_QUARTILE", "SECOND_QUARTILE", "THIRD_QUARTILE",
          "FOURTH_QUARTILE"] : List String) := by
        simpa using hcond
      have hlt := List.indexOf_lt_length.mpr hmem
      have h5 : (["NONE", "FIRST_QUARTILE", "SECOND_QUARTILE", "THIRD_QUARTILE",
          "FOURTH_QUARTILE"] : List String).length = 5 := rfl
      rw [h5] at hlt
      omega
    · exact ⟨le_refl 0, by norm_num⟩

/-- C4 witness: the unrecognized string UNKNOWN maps to 0, and the named quartiles map
to their indices. -/
theorem mapActivityLevel_total_range_witness :
    mapActivityLevel "UNKNOWN" = 0 ∧ mapActivityLevel "FIRST_QUARTILE" = 1 ∧
    mapActivityLevel "FOURTH_QUARTILE" = 4 ∧
    0 ≤ mapActivityLevel "whatever" ∧ mapActivityLevel "whatever" ≤ 4 :=
  ⟨mapActivityLevel_total_range.2.2.2.2.2.1 "UNKNOWN" (by decide),
    mapActivityLevel_total_range.2.1,
    mapActivityLevel_total_range.2.2.2.2.1,
    (mapActivityLevel_total_range.2.2.2.2.2.2 "whatever").1,
    (mapActivityLevel_total_range.2.2.2.2.2.2 "whatever").2⟩

/-- C5: mapContributions is the flat concatenation of all days across all weeks in
upstream iteration order (weeks in order, days within each week), each record carrying
the upstream day's count and date unchanged and level = mapActivityLevel of its
contributionLevel; the output length is the sum of the weeks' day-list lengths. -/
theorem mapContributions_flat_order (calendar : QCalendar) :
    mapContributions calendar =
      (calendar.weeks.map (fun week => week.days.map actOfDay)).flatten ∧
    (∀ act : QDay, actOfDay act =
      { count := act.count, date := act.date,
        level := mapActivityLevel act.contributionLevel }) ∧
    (mapContributions calendar).length =
      (calendar.weeks.map (fun week => week.days.length)).sum := by
  refine ⟨mapContributions_flatten calendar, fun act => rfl, ?_⟩
  rw [mapContributions_flatten, List.length_flatten, List.map_map]
  have hcomp : (List.length ∘ fun week => List.map actOfDay week.days) =
      fun week : QWeek => week.days.length := by
    funext week
    simp [Function.comp]
  rw [hcomp]

/-- C6: toCsv emits the header line date,count,level and then one comma-joined row per
activity in mapper order, joined by single newlines with no trailing newline; the empty
list yields exactly the header, and the singleton {date 2024-01-01, count 3, level 2}
yields exactly the two-line string of the spec. -/
theorem toCsv_format (activities : List Activity) :
    toCsv activities = activities.foldl
      (fun acc a => acc ++ "\n" ++ (a.date ++ "," ++ toString a.count ++ ","
        ++ toString a.level)) "date,count,level" ∧
    toCsv [] = "date,count,level" ∧
    toCsv [{ count := 3, date := "2024-01-01", level := 2 }] =
      "date,count,level\n2024-01-01,3,2" := by
  refine ⟨?_, by decide, by decide⟩
  unfold toCsv
  rw [intercalate_foldl, List.foldl_map]

/-- C7: whenever query validation fails, the route answers HTTP 400 with body
error = Invalid options and the first offending field's message, for every possible
upstream state: the response does not depend on the upstream at all, so no upstream
call is observable. -/
theorem route_invalid_options_400 (now : Int) (q : RawQuery) (msg : String)
    (h : validateQuery q = .error msg) :
    ∀ upstream : UpstreamResult,
      getContributionsRoute now q upstream =
        ⟨400, .errObj "Invalid options" msg⟩ := by
  intro upstream
  unfold getContributionsRoute
  rw [h]

/-- C7 witness: d=0 fails validation with the message naming 'd', the route returns the
400 body for any upstream state, and format=xml fails with the message naming 'format'. -/
theorem route_invalid_options_400_witness :
    validateQuery ⟨none, none, some "0", none, none, none, none⟩ =
      .error "'d' (days) must be greater than 1" ∧
    getContributionsRoute 0 ⟨none, none, some "0", none, none, none, none⟩
      (.success ⟨0, []⟩) =
      ⟨400, .errObj "Invalid options" "'d' (days) must be greater than 1"⟩ ∧
    validateQuery ⟨none, none, none, none, none, none, some "xml"⟩ =
      .error "'format' must be 'json' or 'csv'" :=
  ⟨by decide,
    route_invalid_options_400 0 ⟨none, none, some "0", none, none, none, none⟩
      "'d' (days) must be greater than 1" (by decide) (.success ⟨0, []⟩),
    by decide⟩

/-- C8: when the upstream fetch fails (network failure or unparseable body),
getContributions throws the fixed message Failed to fetch contributions data from
GitHub, and for every validated query the route surfaces it as HTTP 500 with body
error = Server error carrying that message. The model makes exactly one upstream
attempt per request; there is no retry path. -/
theorem route_upstream_failure_500 (now : Int) (q : RawQuery) (o : QueryOptions)
    (h : validateQuery q = .ok o) :
    getContributions .failure =
      .error "Failed to fetch contributions data from GitHub" ∧
    getContributionsRoute now q .failure =
      ⟨500, .errObj "Server error" "Failed to fetch contributions data from GitHub"⟩ := by
  refine ⟨rfl, ?_⟩
  unfold getContributionsRoute
  rw [h]
  rfl

/-- C8 witness: the empty query validates, and with a failing upstream the route
answers 500 with the fixed message. -/
theorem route_upstream_failure_500_witness :
    validateQuery ⟨none, none, none, none, none, none, none⟩ =
      .ok ⟨none, none, none, none, none, 1, .json⟩ ∧
    getContributionsRoute 0 ⟨none, none, none, none, none, none, none⟩ .failure =
      ⟨500, .errObj "Server error" "Failed to fetch contributions data from GitHub"⟩ :=
  ⟨by decide,
    (route_upstream_failure_500 0 ⟨none, none, none, none, none, none, none⟩
      ⟨none, none, none, none, none, 1, .json⟩ (by decide)).2⟩

/-- C9 (amended): the invariant from <= to holds for every validated QueryOptions in
which `from` is not supplied explicitly (the start is the end minus a positive duration,
then aligned backward); an explicit `from` later than `to` violates it. -/
theorem resolveDates_from_le_to_of_no_explicit_from (now : Int) (o : QueryOptions)
    (h : o.Valid) (hfrom : o.fromOpt = none) :
    (resolveDates now o).fromD ≤ (resolveDates now o).toD := by
  rw [resolveDates_split now o h]
  have hbase : baseFrom now o = baseTo now o := by
    unfold baseFrom
    rw [hfrom]
  have hdur := durationBack_le o h (baseFrom now o)
  have hgb := jsGetDay_bounds (durationBack o (baseFrom now o))
  show weekAlignBack (durationBack o (baseFrom now o)) ≤ baseTo now o
  unfold weekAlignBack
  omega

/-- C9 witness: with to=2024-01-31 and no explicit from, the resolved window is
ordered. -/
theorem resolveDates_from_le_to_witness :
    (QueryOptions.mk none (some ⟨2024, 1, 31⟩) none none none 1 .json).Valid ∧
    (resolveDates 20000 ⟨none, some ⟨2024, 1, 31⟩, none, none, none, 1, .json⟩).fromD ≤
      (resolveDates 20000 ⟨none, some ⟨2024, 1, 31⟩, none, none, none, 1, .json⟩).toD :=
  ⟨by decide,
    resolveDates_from_le_to_of_no_explicit_from 20000
      ⟨none, some ⟨2024, 1, 31⟩, none, none, none, 1, .json⟩ (by decide) rfl⟩

/-- C9 counterexample: the validated options from=2025-06-01, to=2020-01-01 (no
durations) resolve to a window whose start is after its end, so from <= to does not
hold for every validated QueryOptions. -/
theorem resolveDates_window_order_violated :
    validateQuery ⟨some "2025-06-01", some "2020-01-01", none, none, none, none, none⟩ =
      .ok ⟨some ⟨2025, 6, 1⟩, some ⟨2020, 1, 1⟩, none, none, none, 1, .json⟩ ∧
    ¬ ((resolveDates 20000 ⟨some ⟨2025, 6, 1⟩, some ⟨2020, 1, 1⟩, none, none, none, 1,
        .json⟩).fromD ≤
      (resolveDates 20000 ⟨some ⟨2025, 6, 1⟩, some ⟨2020, 1, 1⟩, none, none, none, 1,
        .json⟩).toD) := by
  decide
